import Mathlib

/-!
Shallow embedding of the audit-service request pipeline (Go) and proofs of
the specification claims about it.

Strings are modelled as `List Char` (the service handles ASCII header and
token material; Go byte indexing and Lean char indexing coincide on ASCII).
Wall-clock instants are modelled as integers (seconds).
-/

namespace AuditProof

/-- The ASCII fragment of Go's `unicode.IsSpace`, used by `strings.TrimSpace`
(space, tab, newline, carriage return, vertical tab, form feed). -/
def isGoSpace (c : Char) : Bool :=
  c = ' ' || c = '\t' || c = '\n' || c = '\r' || c = Char.ofNat 11 || c = Char.ofNat 12

/-- Go `strings.TrimSpace`: remove leading and trailing whitespace. -/
def goTrimSpace (s : List Char) : List Char :=
  ((s.dropWhile isGoSpace).reverse.dropWhile isGoSpace).reverse

/-- ASCII lowering of one character, the ASCII fragment of Go `strings.ToLower`. -/
def goToLowerChar (c : Char) : Char :=
  if 'A' ≤ c ∧ c ≤ 'Z' then Char.ofNat (c.toNat + 32) else c

/-- Embedding of `extractBearerToken` (internal/middleware/auth.go):
trim the header, require at least 7 bytes whose first six lowercase to
`bearer`, then return the trimmed remainder if non-empty. -/
def extractBearerToken (authHeader : List Char) : List Char :=
  if (goTrimSpace authHeader).length < 7 then []
  else if ((goTrimSpace authHeader).take 6).map goToLowerChar ≠ "bearer".toList then []
  else if goTrimSpace ((goTrimSpace authHeader).drop 6) = [] then []
  else goTrimSpace ((goTrimSpace authHeader).drop 6)

/-- Bearer-scheme extraction written from the SPEC's words, for comparison
with `extractBearerToken`: the scheme `bearer` (case-insensitive) must be
followed by whitespace and a non-empty token; surrounding whitespace and
multiple inner spaces are tolerated, and the token is returned with spaces
trimmed. -/
def specExtractBearerToken (authHeader : List Char) : Option (List Char) :=
  if 7 ≤ (goTrimSpace authHeader).length ∧
     ((goTrimSpace authHeader).take 6).map goToLowerChar = "bearer".toList ∧
     isGoSpace ((goTrimSpace authHeader).getD 6 'x') = true then
    if goTrimSpace ((goTrimSpace authHeader).drop 6) = [] then none
    else some (goTrimSpace ((goTrimSpace authHeader).drop 6))
  else none

/-! ## SHA-256 (crypto/sha256), used by the bearer cache key derivation -/

/-- Truncation to a 32-bit word. -/
def w32 (n : Nat) : Nat := n % 4294967296

/-- Rotate a 32-bit word right by `n` positions. -/
def rotr32 (n x : Nat) : Nat := w32 ((x >>> n) ||| (x <<< (32 - n)))

/-- SHA-256 round constants, in decimal. -/
def sha256K : List Nat :=
  [1116352408, 1899447441, 3049323471, 3921009573, 961987163,
   1508970993, 2453635748, 2870763221, 3624381080, 310598401,
   607225278, 1426881987, 1925078388, 2162078206, 2614888103,
   3248222580, 3835390401, 4022224774, 264347078, 604807628,
   770255983, 1249150122, 1555081692, 1996064986, 2554220882,
   2821834349, 2952996808, 3210313671, 3336571891, 3584528711,
   113926993, 338241895, 666307205, 773529912, 1294757372,
   1396182291, 1695183700, 1986661051, 2177026350, 2456956037,
   2730485921, 2820302411, 3259730800, 3345764771, 3516065817,
   3600352804, 4094571909, 275423344, 430227734, 506948616,
   659060556, 883997877, 958139571, 1322822218, 1537002063,
   1747873779, 1955562222, 2024104815, 2227730452, 2361852424,
   2428436474, 2756734187, 3204031479, 3329325298]

/-- SHA-256 initial hash state, in decimal. -/
def sha256H0 : List Nat :=
  [1779033703, 3144134277, 1013904242, 2773480762,
   1359893119, 2600822924, 528734635, 1541459225]

/-- Big-endian 8-byte encoding of a natural number. -/
def bytesOfNat64 (n : Nat) : List Nat :=
  (List.range 8).map (fun i => (n >>> (8 * (7 - i))) % 256)

/-- SHA-256 message padding: `0x80`, zero bytes, then the 64-bit bit length. -/
def sha256Pad (msg : List Nat) : List Nat :=
  let padLen := (64 - (msg.length + 9) % 64) % 64
  msg ++ [0x80] ++ List.replicate padLen 0 ++ bytesOfNat64 (8 * msg.length)

/-- Split a byte stream into 64-byte blocks. -/
def toBlocks : List Nat → List (List Nat)
  | [] => []
  | a :: rest => (a :: rest).take 64 :: toBlocks ((a :: rest).drop 64)
termination_by l => l.length
decreasing_by simp [List.length_drop]; omega

/-- The 16 big-endian 32-bit words of one 64-byte block. -/
def wordsOfBlock (b : List Nat) : List Nat :=
  (List.range 16).map (fun i =>
    b.getD (4 * i) 0 * 16777216 + b.getD (4 * i + 1) 0 * 65536 +
    b.getD (4 * i + 2) 0 * 256 + b.getD (4 * i + 3) 0)

/-- Append the next word of the SHA-256 message schedule. -/
def scheduleStep (w : List Nat) : List Nat :=
  let n := w.length
  let x15 := w.getD (n - 15) 0
  let x2 := w.getD (n - 2) 0
  let s0 := rotr32 7 x15 ^^^ rotr32 18 x15 ^^^ (x15 >>> 3)
  let s1 := rotr32 17 x2 ^^^ rotr32 19 x2 ^^^ (x2 >>> 10)
  w ++ [w32 (w.getD (n - 16) 0 + s0 + w.getD (n - 7) 0 + s1)]

/-- Extend 16 schedule words to 64. -/
def fullSchedule (w : List Nat) : List Nat :=
  (List.range 48).foldl (fun acc _ => scheduleStep acc) w

/-- One SHA-256 compression round on the 8-word working state. -/
def sha256Round (st : List Nat) (k wi : Nat) : List Nat :=
  match st with
  | [a, b, c, d, e, f, g, h] =>
    let S1 := rotr32 6 e ^^^ rotr32 11 e ^^^ rotr32 25 e
    let ch := (e &&& f) ^^^ ((e ^^^ 4294967295) &&& g)
    let temp1 := w32 (h + S1 + ch + k + wi)
    let S0 := rotr32 2 a ^^^ rotr32 13 a ^^^ rotr32 22 a
    let maj := (a &&& b) ^^^ (a &&& c) ^^^ (b &&& c)
    let temp2 := w32 (S0 + maj)
    [w32 (temp1 + temp2), a, b, c, w32 (d + temp1), e, f, g]
  | _ => st

/-- Compress one 64-byte block into the running hash state. -/
def compressBlock (hs : List Nat) (block : List Nat) : List Nat :=
  let w := fullSchedule (wordsOfBlock block)
  let st := (sha256K.zip w).foldl (fun s kw => sha256Round s kw.1 kw.2) hs
  (hs.zip st).map (fun p => w32 (p.1 + p.2))

/-- SHA-256 of a byte stream, as 32 bytes. -/
def sha256 (msg : List Nat) : List Nat :=
  let hh := (toBlocks (sha256Pad msg)).foldl compressBlock sha256H0
  (hh.map (fun x => [(x >>> 24) % 256, (x >>> 16) % 256, (x >>> 8) % 256, x % 256])).flatten

/-- Lowercase hexadecimal digit. -/
def hexDigit (n : Nat) : Char := "0123456789abcdef".toList.getD n '0'

/-- Lowercase hexadecimal rendering of a byte stream (Go `fmt.Sprintf "%x"`). -/
def hexOfBytes (bs : List Nat) : List Char :=
  (bs.map (fun b => [hexDigit (b / 16), hexDigit (b % 16)])).flatten

/-- Byte encoding of a token string (ASCII; Go `[]byte(token)`). -/
def goBytes (s : List Char) : List Nat := s.map Char.toNat

/-! ## Token cache (pkg/cache/token_cache.go) -/

/-- Embedding of `CachedTokenInfo`: the validated token information stored in the cache. -/
structure CachedTokenInfo where
  userID : List Char
  sessionID : List Char
  expiresAt : Int
deriving DecidableEq

/-- The underlying key-value store of `TokenCache` (contents of the
`go-cache` store at a given instant). -/
def CacheMap : Type := List Char → Option CachedTokenInfo

/-- Store an entry under a key. -/
def cacheSet (m : CacheMap) (key : List Char) (info : CachedTokenInfo) : CacheMap :=
  fun k => if k = key then some info else m k

/-- Delete the entry under a key. -/
def cacheDelete (m : CacheMap) (key : List Char) : CacheMap :=
  fun k => if k = key then none else m k

/-- Embedding of `getJWTKey`: bearer cache key, `"jwt:"` plus the lowercase hex of the
SHA-256 of the token. -/
def getJWTKey (token : List Char) : List Char :=
  "jwt:".toList ++ hexOfBytes (sha256 (goBytes token))

/-- Embedding of `getShareTokenKey`: share cache key, `"share:" + token + ":" + sessionID`. -/
def getShareTokenKey (token sessionID : List Char) : List Char :=
  "share:".toList ++ token ++ ":".toList ++ sessionID

/-- Embedding of `TokenCache.GetJWT`: look up a bearer entry; an entry whose embedded
`expiresAt` is not in the future is removed and reported as a miss.
Returns the lookup result and the store after the lookup. -/
def GetJWT (m : CacheMap) (now : Int) (token : List Char) :
    Option CachedTokenInfo × CacheMap :=
  match m (getJWTKey token) with
  | some info =>
    if now < info.expiresAt then (some info, m)
    else (none, cacheDelete m (getJWTKey token))
  | none => (none, m)

/-- Embedding of `TokenCache.SetJWT`: cache a bearer validation result. -/
def SetJWT (m : CacheMap) (token : List Char) (info : CachedTokenInfo) : CacheMap :=
  cacheSet m (getJWTKey token) info

/-- Embedding of `TokenCache.GetShareToken`: look up a share entry (no embedded-expiry check). -/
def GetShareToken (m : CacheMap) (token sessionID : List Char) : Option CachedTokenInfo :=
  m (getShareTokenKey token sessionID)

/-- Embedding of `TokenCache.SetShareToken`: cache a share validation result. -/
def SetShareToken (m : CacheMap) (token sessionID : List Char)
    (info : CachedTokenInfo) : CacheMap :=
  cacheSet m (getShareTokenKey token sessionID) info

/-- Embedding of `TokenCache.InvalidateJWT`: remove a bearer entry. -/
def InvalidateJWT (m : CacheMap) (token : List Char) : CacheMap :=
  cacheDelete m (getJWTKey token)

/-- Embedding of `TokenCache.InvalidateShareToken`: remove a share entry. -/
def InvalidateShareToken (m : CacheMap) (token sessionID : List Char) : CacheMap :=
  cacheDelete m (getShareTokenKey token sessionID)

/-! ## JWT validator (pkg/jwt/validator.go) -/

/-- The registered claims carried by a parsed token, plus the service's
`UserID` projection (`Claims` in validator.go). `none` models a nil
`*jwt.NumericDate`. -/
structure JWTClaims where
  subject : List Char
  expiresAt : Option Int
  issuedAt : Option Int
  issuer : List Char
  userID : List Char
deriving DecidableEq

/-- The outcome of the third-party `jwt.ParseWithClaims` call: the decoded
claims and the library's token-valid flag. -/
structure ParsedToken where
  valid : Bool
  claims : JWTClaims
deriving DecidableEq

/-- Embedding of `tokenValidator.ValidateToken` after the library parse (validator.go
lines 70–100): reject parse failure, invalid tokens, an `exp` in the past,
an `iat` in the future; project a non-empty subject into `userID`. The
library outcome is an explicit argument (`none` models a parse error). -/
def ValidateToken (parseResult : Option ParsedToken) (now : Int) :
    Except (List Char) JWTClaims :=
  match parseResult with
  | none => .error "failed to parse token".toList
  | some pt =>
    if pt.valid = false then .error "invalid token".toList
    else if (match pt.claims.expiresAt with
             | some e => decide (e < now)
             | none => false) then .error "token expired".toList
    else if (match pt.claims.issuedAt with
             | some i => decide (now < i)
             | none => false) then .error "token used before issued".toList
    else if pt.claims.subject ≠ [] then
      .ok { pt.claims with userID := pt.claims.subject }
    else .ok pt.claims

/-- Modelled from the spec: the claim-validation half of the third-party
golang-jwt parse, which is not part of this repository. Per the spec's
"token valid flag per library semantics" and the repository's own tests
(an expired token fails inside the parse with "token has invalid claims:
token is expired"), a parse outcome marked valid has any present `exp`
strictly in the future at validation time. -/
def libraryExpOK (parseResult : Option ParsedToken) (now : Int) : Prop :=
  ∀ pt, parseResult = some pt → pt.valid = true →
    ∀ e, pt.claims.expiresAt = some e → now < e

/-! ## Auth middleware (internal/middleware/auth.go) -/

/-- The parts of an inbound request the Auth middleware reads. Empty lists
model an absent path parameter, query parameter, or header. -/
structure AuthRequest where
  sessionId : List Char
  shareTokenParam : List Char
  authHeader : List Char
deriving DecidableEq

/-- Observable actions of the middleware, in order of occurrence. -/
inductive AuthEvent
  | readBearerHeader
  | bearerCacheLookup (token : List Char)
  | bearerVerify (token : List Char)
  | shareCacheLookup (token sessionId : List Char)
  | shareBackendValidate (token sessionId : List Char)
deriving DecidableEq

/-- Events belonging to the bearer path. -/
def isBearerEvent : AuthEvent → Bool
  | .readBearerHeader => true
  | .bearerCacheLookup _ => true
  | .bearerVerify _ => true
  | _ => false

/-- The middleware's decision for a request. `nilPanic` models a Go
nil-pointer dereference. -/
inductive AuthOutcome
  | unauthorized
  | forbidden
  | proceed (tokenType : List Char) (userID : List Char)
  | nilPanic
deriving DecidableEq

/-- External collaborators of the middleware: the repository's share-token
check and the outcome of the library parse inside the token validator. -/
structure AuthEnv where
  repoValidateShare : List Char → List Char → Except (List Char) Bool
  parse : List Char → Option ParsedToken

/-- Embedding of `validateShareToken` (auth.go lines 153–199): cache hit, or a backend
check whose positive result is cached with a synthetic 24-hour expiry. -/
def validateShareToken (env : AuthEnv) (m : CacheMap) (now : Int)
    (token sessionID : List Char) : Bool × CacheMap × List AuthEvent :=
  match GetShareToken m token sessionID with
  | some _ => (true, m, [.shareCacheLookup token sessionID])
  | none =>
    match env.repoValidateShare token sessionID with
    | .error _ =>
      (false, m, [.shareCacheLookup token sessionID, .shareBackendValidate token sessionID])
    | .ok false =>
      (false, m, [.shareCacheLookup token sessionID, .shareBackendValidate token sessionID])
    | .ok true =>
      (true,
       SetShareToken m token sessionID
         { userID := [], sessionID := sessionID, expiresAt := now + 86400 },
       [.shareCacheLookup token sessionID, .shareBackendValidate token sessionID])

/-- Result of `validateJWTToken`: success with the user id and the updated
store, failure, or the nil-pointer dereference at the cache write. -/
inductive JWTStep
  | okStep (userID : List Char) (m : CacheMap)
  | failStep (m : CacheMap)
  | panicStep

/-- Embedding of `validateJWTToken` (auth.go lines 111–150): cache hit, or a verifier
call whose success is cached with the token's own `exp` as `expiresAt`.
The Go source reads `claims.ExpiresAt.Time` unconditionally for the cache
write, so a success with no `exp` claim dereferences a nil pointer. -/
def validateJWTToken (env : AuthEnv) (m : CacheMap) (now : Int)
    (token : List Char) : JWTStep × List AuthEvent :=
  match GetJWT m now token with
  | (some info, m1) => (.okStep info.userID m1, [.bearerCacheLookup token])
  | (none, m1) =>
    match ValidateToken (env.parse token) now with
    | .error _ => (.failStep m1, [.bearerCacheLookup token, .bearerVerify token])
    | .ok claims =>
      match claims.expiresAt with
      | none => (.panicStep, [.bearerCacheLookup token, .bearerVerify token])
      | some e =>
        (.okStep claims.userID
           (SetJWT m1 token { userID := claims.userID, sessionID := [], expiresAt := e }),
         [.bearerCacheLookup token, .bearerVerify token])

/-- The `Auth` middleware (auth.go lines 25–87): require a session id, take
the share path when the `share_token` query parameter is non-empty (share
failure is 403, never falling through to JWT), otherwise the bearer path
(missing or malformed header, or failed verification, is 401). Returns the
outcome, the cache store afterwards, and the events in order. -/
def Auth (env : AuthEnv) (m : CacheMap) (now : Int) (req : AuthRequest) :
    AuthOutcome × CacheMap × List AuthEvent :=
  if req.sessionId = [] then (.unauthorized, m, [])
  else if req.shareTokenParam ≠ [] then
    match validateShareToken env m now req.shareTokenParam req.sessionId with
    | (true, m1, evs) => (.proceed "share".toList [], m1, evs)
    | (false, m1, evs) => (.forbidden, m1, evs)
  else if req.authHeader = [] then (.unauthorized, m, [.readBearerHeader])
  else if extractBearerToken req.authHeader = [] then (.unauthorized, m, [.readBearerHeader])
  else
    match validateJWTToken env m now (extractBearerToken req.authHeader) with
    | (.okStep uid m1, evs) => (.proceed "jwt".toList uid, m1, .readBearerHeader :: evs)
    | (.failStep m1, evs) => (.unauthorized, m1, .readBearerHeader :: evs)
    | (.panicStep, evs) => (.nilPanic, m, .readBearerHeader :: evs)

/-! ## Domain errors (internal/domain/errors.go) -/

/-- The sentinel error values declared in errors.go. -/
inductive Sentinel
  | unauthorized
  | invalidToken
  | tokenExpired
  | missingToken
  | forbidden
  | accessDenied
  | notFound
  | sessionNotFound
  | invalidSessionID
  | invalidPagination
  | serviceUnavailable
  | timeout
deriving DecidableEq

/-- A Go error value as this codebase builds them: a sentinel, a fresh
error, or `fmt.Errorf("...: %w", inner)` wrapping one inner error. -/
inductive GoError
  | sentinelErr (s : Sentinel)
  | otherErr (msg : List Char)
  | wrapErr (msg : List Char) (inner : GoError)
deriving DecidableEq

/-- Embedding of `errors.Is(err, sentinel)`: the unwrap chain reaches that sentinel. -/
def errIs : GoError → Sentinel → Bool
  | .sentinelErr s, t => s = t
  | .otherErr _, _ => false
  | .wrapErr _ inner, t => errIs inner t

/-- Embedding of `APIError`: wire code, human message, HTTP status. -/
structure APIError where
  code : List Char
  message : List Char
  status : Int
deriving DecidableEq

/-- Embedding of `APIErrUnauthorized`. -/
def APIErrUnauthorized : APIError :=
  ⟨"unauthorized".toList, "Authentication required".toList, 401⟩

/-- Embedding of `APIErrForbidden`. -/
def APIErrForbidden : APIError :=
  ⟨"forbidden".toList, "Access denied to this resource".toList, 403⟩

/-- Embedding of `APIErrNotFound`. -/
def APIErrNotFound : APIError :=
  ⟨"not_found".toList, "The requested resource was not found".toList, 404⟩

/-- Embedding of `APIErrBadRequest`. -/
def APIErrBadRequest : APIError :=
  ⟨"bad_request".toList, "Invalid request parameters".toList, 400⟩

/-- Embedding of `APIErrInternalServer`. -/
def APIErrInternalServer : APIError :=
  ⟨"internal_server_error".toList, "An internal server error occurred".toList, 500⟩

/-- Embedding of `APIErrServiceUnavailable`. -/
def APIErrServiceUnavailable : APIError :=
  ⟨"service_unavailable".toList, "Service temporarily unavailable".toList, 503⟩

/-- Embedding of `ToAPIError` (errors.go lines 105–135). -/
def ToAPIError (err : GoError) : APIError :=
  if errIs err .unauthorized || errIs err .invalidToken ||
     errIs err .tokenExpired || errIs err .missingToken then APIErrUnauthorized
  else if errIs err .forbidden || errIs err .accessDenied then APIErrForbidden
  else if errIs err .notFound || errIs err .sessionNotFound then APIErrNotFound
  else if errIs err .invalidSessionID || errIs err .invalidPagination then APIErrBadRequest
  else if errIs err .serviceUnavailable then APIErrServiceUnavailable
  else if errIs err .timeout then ⟨"timeout".toList, "Request timeout".toList, 504⟩
  else APIErrInternalServer

/-! ## Audit domain (internal/domain/audit.go) -/

/-- Embedding of `AuditEntry`. `none` models an absent optional field. -/
structure AuditEntry where
  id : List Char
  sessionId : List Char
  userId : List Char
  action : List Char
  timestamp : Int
  details : Option (List Char)
  ipAddress : Option (List Char)
  userAgent : Option (List Char)
deriving DecidableEq

/-- Embedding of `AuditResponse`. `items` is a Go slice: `none` models a nil slice,
`some l` a non-nil slice with elements `l`. -/
structure AuditResponse where
  totalCount : Int
  items : Option (List AuditEntry)
deriving DecidableEq

/-- Embedding of `PaginationParams`. -/
structure PaginationParams where
  limit : Int
  offset : Int
deriving DecidableEq

/-- Embedding of `PaginationParams.Validate` (audit.go lines 49–59). -/
def PaginationParams.Validate (p : PaginationParams) : PaginationParams :=
  let p1 := if p.limit ≤ 0 then { p with limit := 50 } else p
  let p2 := if p1.limit > 100 then { p1 with limit := 100 } else p1
  if p2.offset < 0 then { p2 with offset := 0 } else p2

/-- The JSON rendering of the `items` field. The Go struct tag `json:"items"`
has no `omitempty`, so the field is always emitted; `encoding/json` renders
a nil slice as `null` and any non-nil slice as an array. -/
inductive ItemsWire
  | nullItems
  | seqItems (entries : List AuditEntry)
deriving DecidableEq

/-- Go `encoding/json` marshalling of the `items` slice. -/
def marshalItems : Option (List AuditEntry) → ItemsWire
  | none => .nullItems
  | some l => .seqItems l

/-! ## Audit service (internal/service/audit_service.go) -/

/-- Embedding of `Session` (internal/repository): the owner projection. -/
structure Session where
  id : List Char
  userID : List Char
deriving DecidableEq

/-- The repository operations the service calls, as oracles: `GetSession`
and `FindBySessionID` (the latter returns the decoded entries slice and the
backend-reported total). -/
structure SvcEnv where
  getSession : List Char → Except GoError Session
  findBySessionID : List Char → Int → Int → Except GoError (Option (List AuditEntry) × Int)

/-- Repository queries the service issues, in order. -/
inductive SvcEvent
  | getSessionQuery (sessionId : List Char)
  | findBySessionIDQuery (sessionId : List Char) (limit offset : Int)
deriving DecidableEq

/-- Embedding of `auditService.validateOwnership` (audit_service.go lines 81–102):
fetch the session; `SessionNotFound` becomes `NotFound`, other errors are
wrapped; a differing owner is `Forbidden`. -/
def validateOwnership (env : SvcEnv) (sessionID userID : List Char) :
    Option GoError × List SvcEvent :=
  match env.getSession sessionID with
  | .error e =>
    if errIs e .sessionNotFound then
      (some (.sentinelErr .notFound), [.getSessionQuery sessionID])
    else
      (some (.wrapErr "failed to get session".toList e), [.getSessionQuery sessionID])
  | .ok session =>
    if session.userID ≠ userID then
      (some (.sentinelErr .forbidden), [.getSessionQuery sessionID])
    else
      (none, [.getSessionQuery sessionID])

/-- Embedding of `auditService.GetAuditLogs` (audit_service.go lines 37–78): normalize
pagination, check ownership unless a share token authorized the request,
fetch the page, build the response. Returns the result and the repository
queries issued, in order. -/
def GetAuditLogs (env : SvcEnv) (sessionID userID : List Char)
    (isShareToken : Bool) (pagination : PaginationParams) :
    Except GoError AuditResponse × List SvcEvent :=
  match (if isShareToken then (none, [])
         else validateOwnership env sessionID userID) with
  | (some e, evs) => (.error e, evs)
  | (none, evs) =>
    match env.findBySessionID sessionID pagination.Validate.limit pagination.Validate.offset with
    | .error e =>
      if errIs e .sessionNotFound then
        (.error (.sentinelErr .notFound),
         evs ++ [.findBySessionIDQuery sessionID
           pagination.Validate.limit pagination.Validate.offset])
      else
        (.error (.wrapErr "failed to fetch audit logs".toList e),
         evs ++ [.findBySessionIDQuery sessionID
           pagination.Validate.limit pagination.Validate.offset])
    | .ok (entries, total) =>
      (.ok { totalCount := total, items := entries },
       evs ++ [.findBySessionIDQuery sessionID
         pagination.Validate.limit pagination.Validate.offset])

/-! ## Claim theorems -/

/-- C10: after `PaginationParams.Validate`, `1 ≤ limit ≤ 100` and
`offset ≥ 0`; a non-positive limit becomes 50, a limit above 100 becomes
100, a negative offset becomes 0, and in-range values are unchanged. -/
theorem pagination_validate_normalizes (p : PaginationParams) :
    (1 ≤ p.Validate.limit ∧ p.Validate.limit ≤ 100 ∧ 0 ≤ p.Validate.offset) ∧
    (p.limit ≤ 0 → p.Validate.limit = 50) ∧
    (100 < p.limit → p.Validate.limit = 100) ∧
    (p.offset < 0 → p.Validate.offset = 0) ∧
    (1 ≤ p.limit → p.limit ≤ 100 → p.Validate.limit = p.limit) ∧
    (0 ≤ p.offset → p.Validate.offset = p.offset) := by
  obtain ⟨l, o⟩ := p
  simp only [PaginationParams.Validate]
  split_ifs <;> simp_all <;> omega

/-- Witness for C10 at `limit = 0`, `offset = -3`. -/
theorem pagination_validate_normalizes_witness :
    ((0 : Int) ≤ 0 ∧ (-3 : Int) < 0) ∧
    (PaginationParams.Validate ⟨0, -3⟩).limit = 50 ∧
    (PaginationParams.Validate ⟨0, -3⟩).offset = 0 :=
  ⟨by constructor <;> decide,
   (pagination_validate_normalizes ⟨0, -3⟩).2.1 (by decide),
   (pagination_validate_normalizes ⟨0, -3⟩).2.2.2.1 (by decide)⟩

/-- Each error chain reaches at most one sentinel. -/
theorem errIs_at_most_one (e : GoError) (s t : Sentinel)
    (hs : errIs e s = true) (ht : errIs e t = true) : s = t := by
  induction e with
  | sentinelErr u =>
    simp [errIs] at hs ht
    rw [← hs, ← ht]
  | otherErr msg => simp [errIs] at hs
  | wrapErr msg inner ih =>
    simp only [errIs] at hs ht
    exact ih hs ht

/-- Wrapping is transparent to `ToAPIError`. -/
theorem toAPIError_wrap (msg : List Char) (inner : GoError) :
    ToAPIError (.wrapErr msg inner) = ToAPIError inner := by
  simp [ToAPIError, errIs]

/-- C8: `ToAPIError` maps every internal error to exactly the taxonomy's
HTTP status and wire code: the 401/403/404/400/504/503 families for the
corresponding sentinels, and 500 `internal_server_error` otherwise. -/
theorem toAPIError_taxonomy (err : GoError) :
    ((errIs err .unauthorized || errIs err .invalidToken ||
      errIs err .tokenExpired || errIs err .missingToken) = true →
      ToAPIError err = APIErrUnauthorized) ∧
    ((errIs err .forbidden || errIs err .accessDenied) = true →
      ToAPIError err = APIErrForbidden) ∧
    ((errIs err .notFound || errIs err .sessionNotFound) = true →
      ToAPIError err = APIErrNotFound) ∧
    ((errIs err .invalidSessionID || errIs err .invalidPagination) = true →
      ToAPIError err = APIErrBadRequest) ∧
    (errIs err .timeout = true →
      ToAPIError err = ⟨"timeout".toList, "Request timeout".toList, 504⟩) ∧
    (errIs err .serviceUnavailable = true →
      ToAPIError err = APIErrServiceUnavailable) ∧
    ((∀ s : Sentinel, errIs err s = false) → ToAPIError err = APIErrInternalServer) ∧
    (APIErrUnauthorized.status = 401 ∧ APIErrUnauthorized.code = "unauthorized".toList ∧
     APIErrForbidden.status = 403 ∧ APIErrForbidden.code = "forbidden".toList ∧
     APIErrNotFound.status = 404 ∧ APIErrNotFound.code = "not_found".toList ∧
     APIErrBadRequest.status = 400 ∧ APIErrBadRequest.code = "bad_request".toList ∧
     APIErrServiceUnavailable.status = 503 ∧
     APIErrServiceUnavailable.code = "service_unavailable".toList ∧
     APIErrInternalServer.status = 500 ∧
     APIErrInternalServer.code = "internal_server_error".toList) := by
  induction err with
  | sentinelErr u =>
    refine ⟨?_, ?_, ?_, ?_, ?_, ?_,
      fun hall => by have h1 := hall u; simp [errIs] at h1, ?_⟩ <;>
      cases u <;> decide
  | otherErr msg =>
    refine ⟨?_, ?_, ?_, ?_, ?_, ?_, fun _ => by simp [ToAPIError, errIs], by decide⟩ <;>
      (intro hcontra; simp [errIs] at hcontra)
  | wrapErr msg inner ih =>
    simpa only [toAPIError_wrap, errIs] using ih

/-- Witness for C8: a wrapped `ErrTimeout` maps to 504 `timeout`. -/
theorem toAPIError_taxonomy_witness :
    errIs (.wrapErr "failed to fetch audit logs".toList
      (.sentinelErr .timeout)) .timeout = true ∧
    ToAPIError (.wrapErr "failed to fetch audit logs".toList
      (.sentinelErr .timeout)) =
      ⟨"timeout".toList, "Request timeout".toList, 504⟩ :=
  ⟨by decide,
   (toAPIError_taxonomy (.wrapErr "failed to fetch audit logs".toList
      (.sentinelErr .timeout))).2.2.2.2.1 (by decide)⟩

/-- C6: a stored bearer entry whose embedded `expiresAt` is in the past
makes `GetJWT` report a miss and delete the entry, and is observationally
identical to a lookup against the store without that entry; an entry whose
`expiresAt` is in the future is returned as a hit with the store unchanged. -/
theorem getJWT_expiry_behavior (m : CacheMap) (now : Int) (token : List Char)
    (info : CachedTokenInfo) (hstored : m (getJWTKey token) = some info) :
    (info.expiresAt < now →
      GetJWT m now token = (none, cacheDelete m (getJWTKey token)) ∧
      GetJWT m now token = GetJWT (cacheDelete m (getJWTKey token)) now token) ∧
    (now < info.expiresAt → GetJWT m now token = (some info, m)) := by
  constructor
  · intro hpast
    have hnot : ¬ now < info.expiresAt := by omega
    have hdel : cacheDelete m (getJWTKey token) (getJWTKey token) = none := by
      simp [cacheDelete]
    constructor
    · simp [GetJWT, hstored, hnot]
    · simp [GetJWT, hstored, hnot, hdel]
  · intro hfut
    simp [GetJWT, hstored, hfut]

/-- Witness for C6: an entry expiring at 10 is a miss (and is deleted) at
time 20 and a hit at time 5. -/
theorem getJWT_expiry_behavior_witness :
    (cacheSet (fun _ => none) (getJWTKey "tok".toList) ⟨"u".toList, [], 10⟩)
        (getJWTKey "tok".toList) = some ⟨"u".toList, [], 10⟩ ∧
    GetJWT (cacheSet (fun _ => none) (getJWTKey "tok".toList) ⟨"u".toList, [], 10⟩)
        20 "tok".toList =
      (none, cacheDelete
        (cacheSet (fun _ => none) (getJWTKey "tok".toList) ⟨"u".toList, [], 10⟩)
        (getJWTKey "tok".toList)) ∧
    GetJWT (cacheSet (fun _ => none) (getJWTKey "tok".toList) ⟨"u".toList, [], 10⟩)
        5 "tok".toList =
      (some ⟨"u".toList, [], 10⟩,
       cacheSet (fun _ => none) (getJWTKey "tok".toList) ⟨"u".toList, [], 10⟩) := by
  have hstored : (cacheSet (fun _ => none) (getJWTKey "tok".toList)
      ⟨"u".toList, [], 10⟩) (getJWTKey "tok".toList) =
      some ⟨"u".toList, [], 10⟩ := by simp [cacheSet]
  refine ⟨hstored, ?_, ?_⟩
  · exact ((getJWT_expiry_behavior _ 20 _ _ hstored).1 (by decide)).1
  · exact (getJWT_expiry_behavior _ 5 _ _ hstored).2 (by decide)

/-- C4: whenever `ValidateToken` accepts under the library's exp semantics,
any present `exp` is strictly in the future, any present `iat` is not in
the future, and a non-empty subject is projected into `userID`. -/
theorem validateToken_claim_checks (pr : Option ParsedToken) (now : Int)
    (claims : JWTClaims) (hlib : libraryExpOK pr now)
    (hok : ValidateToken pr now = .ok claims) :
    (∀ e, claims.expiresAt = some e → now < e) ∧
    (∀ i, claims.issuedAt = some i → i ≤ now) ∧
    (claims.subject ≠ [] → claims.userID = claims.subject) := by
  cases pr with
  | none => simp [ValidateToken] at hok
  | some pt =>
    simp only [ValidateToken] at hok
    split_ifs at hok with hvalid hexp hiat hsubj
    all_goals simp only [Except.ok.injEq] at hok
    · -- subject branch: claims is pt.claims with userID replaced
      subst hok
      have hvt : pt.valid = true := by
        revert hvalid; cases pt.valid <;> simp
      refine ⟨?_, ?_, fun _ => rfl⟩
      · intro e he
        exact hlib pt rfl hvt e he
      · intro i hi
        rw [hi] at hiat
        simp at hiat
        omega
    · -- empty-subject branch: claims is pt.claims unchanged
      subst hok
      have hvt : pt.valid = true := by
        revert hvalid; cases pt.valid <;> simp
      refine ⟨?_, ?_, fun hne => absurd hsubj (by simp [hne])⟩
      · intro e he
        exact hlib pt rfl hvt e he
      · intro i hi
        rw [hi] at hiat
        simp at hiat
        omega

/-- Witness for C4: a token with subject `u`, `exp = 100`, `iat = 0`,
validated at time 50. -/
theorem validateToken_claim_checks_witness :
    ValidateToken (some ⟨true, ⟨"u".toList, some 100, some 0, [], []⟩⟩) 50 =
      .ok ⟨"u".toList, some 100, some 0, [], "u".toList⟩ ∧
    (∀ e, (some (100 : Int)) = some e → (50 : Int) < e) ∧
    ("u".toList ≠ ([] : List Char) →
      ("u".toList : List Char) = "u".toList) := by
  have hlib : libraryExpOK (some ⟨true, ⟨"u".toList, some 100, some 0, [], []⟩⟩) 50 := by
    intro pt hp hv e he
    cases hp
    simp at he
    omega
  have hok : ValidateToken (some ⟨true, ⟨"u".toList, some 100, some 0, [], []⟩⟩) 50 =
      .ok ⟨"u".toList, some 100, some 0, [], "u".toList⟩ := by rfl
  have h := validateToken_claim_checks _ 50 _ hlib hok
  exact ⟨hok, h.1, fun _ => rfl⟩

/-- C2: without a share token, `GetAuditLogs` fetches the session first; a
missing session yields `NotFound` and a differing owner yields `Forbidden`,
and in both failure cases the only repository query issued is the session
fetch (the audit list is never queried); with a share token the ownership
check is skipped entirely (no session query is issued). -/
theorem getAuditLogs_ownership_gate (env : SvcEnv) (sessionID userID : List Char)
    (p : PaginationParams) :
    (∀ e, env.getSession sessionID = .error e → errIs e .sessionNotFound = true →
      GetAuditLogs env sessionID userID false p =
        (.error (.sentinelErr .notFound), [.getSessionQuery sessionID])) ∧
    (∀ s, env.getSession sessionID = .ok s → s.userID ≠ userID →
      GetAuditLogs env sessionID userID false p =
        (.error (.sentinelErr .forbidden), [.getSessionQuery sessionID])) ∧
    ((GetAuditLogs env sessionID userID true p).2.all
      (fun ev => match ev with
        | .getSessionQuery _ => false
        | _ => true) = true) := by
  refine ⟨?_, ?_, ?_⟩
  · intro e he his
    simp [GetAuditLogs, validateOwnership, he, his]
  · intro s hs hneq
    simp [GetAuditLogs, validateOwnership, hs, hneq]
  · rcases hf : env.findBySessionID sessionID p.Validate.limit p.Validate.offset
      with e | pr
    · simp only [GetAuditLogs, if_pos rfl, hf]
      split_ifs <;> simp
    · obtain ⟨entries, total⟩ := pr
      simp [GetAuditLogs, hf]

/-- Witness for C2: a repository whose session fetch reports
`ErrSessionNotFound` makes the call return `NotFound` after only the
session query. -/
theorem getAuditLogs_ownership_gate_witness :
    (SvcEnv.getSession
        ⟨fun _ => .error (.sentinelErr .sessionNotFound),
         fun _ _ _ => .ok (some [], 0)⟩ "s".toList =
      .error (.sentinelErr .sessionNotFound)) ∧
    GetAuditLogs
        ⟨fun _ => .error (.sentinelErr .sessionNotFound),
         fun _ _ _ => .ok (some [], 0)⟩ "s".toList "u".toList false ⟨50, 0⟩ =
      (.error (.sentinelErr .notFound), [.getSessionQuery "s".toList]) :=
  ⟨rfl,
   (getAuditLogs_ownership_gate
      ⟨fun _ => .error (.sentinelErr .sessionNotFound),
       fun _ _ _ => .ok (some [], 0)⟩ "s".toList "u".toList ⟨50, 0⟩).1
     (.sentinelErr .sessionNotFound) rfl (by decide)⟩

/-- C9: a successful `GetAuditLogs` returns the backend-reported total and
the backend-returned entries slice; since the backend contract delivers a
JSON array (possibly empty) and Go decodes a JSON array to a non-nil
slice, the serialized `items` field is an array — never `null` — even when
the backend returns no entries. -/
theorem getAuditLogs_response_shape (env : SvcEnv) (sessionID userID : List Char)
    (isShareToken : Bool) (p : PaginationParams)
    (entries : List AuditEntry) (total : Int)
    (hfind : env.findBySessionID sessionID p.Validate.limit p.Validate.offset =
      .ok (some entries, total))
    (hauth : isShareToken = true ∨
      ∃ s, env.getSession sessionID = .ok s ∧ s.userID = userID) :
    (GetAuditLogs env sessionID userID isShareToken p).1 =
      .ok { totalCount := total, items := some entries } ∧
    (∀ resp, (GetAuditLogs env sessionID userID isShareToken p).1 = .ok resp →
      marshalItems resp.items = .seqItems entries ∧
      marshalItems resp.items ≠ .nullItems) := by
  have hmain : (GetAuditLogs env sessionID userID isShareToken p).1 =
      .ok { totalCount := total, items := some entries } := by
    rcases hauth with hshare | ⟨s, hs, howner⟩
    · subst hshare
      simp [GetAuditLogs, hfind]
    · cases isShareToken with
      | true => simp [GetAuditLogs, hfind]
      | false => simp [GetAuditLogs, validateOwnership, hs, howner, hfind]
  refine ⟨hmain, ?_⟩
  intro resp hresp
  rw [hmain] at hresp
  injection hresp with hresp
  subst hresp
  simp [marshalItems]

/-- Witness for C9: a backend returning the empty array with total 7 yields
`totalCount = 7` and a serialized empty sequence for `items`. -/
theorem getAuditLogs_response_shape_witness :
    (SvcEnv.findBySessionID
        ⟨fun _ => .ok ⟨"s".toList, "u".toList⟩, fun _ _ _ => .ok (some [], 7)⟩
        "s".toList (PaginationParams.Validate ⟨50, 0⟩).limit
        (PaginationParams.Validate ⟨50, 0⟩).offset = .ok (some [], 7)) ∧
    (GetAuditLogs
        ⟨fun _ => .ok ⟨"s".toList, "u".toList⟩, fun _ _ _ => .ok (some [], 7)⟩
        "s".toList "u".toList false ⟨50, 0⟩).1 =
      .ok { totalCount := 7, items := some [] } := by
  refine ⟨rfl, ?_⟩
  exact (getAuditLogs_response_shape
      ⟨fun _ => .ok ⟨"s".toList, "u".toList⟩, fun _ _ _ => .ok (some [], 7)⟩
      "s".toList "u".toList false ⟨50, 0⟩ [] 7 rfl
      (.inr ⟨⟨"s".toList, "u".toList⟩, rfl, rfl⟩)).1

/-- The share path emits only share-namespace events. -/
theorem validateShareToken_events_share_only (env : AuthEnv) (m : CacheMap)
    (now : Int) (token sessionID : List Char) :
    ((validateShareToken env m now token sessionID).2.2.all
      (fun ev => !isBearerEvent ev)) = true := by
  unfold validateShareToken
  cases hg : GetShareToken m token sessionID with
  | some info => rfl
  | none =>
    rcases hr : env.repoValidateShare token sessionID with e | b
    · rfl
    · cases b <;> rfl

/-- A share-cache miss together with a backend error or a no-grant answer
makes `validateShareToken` report failure. -/
theorem validateShareToken_fail (env : AuthEnv) (m : CacheMap) (now : Int)
    (token sessionID : List Char)
    (hmiss : GetShareToken m token sessionID = none)
    (hrepo : ∀ b, env.repoValidateShare token sessionID = .ok b → b = false) :
    (validateShareToken env m now token sessionID).1 = false := by
  unfold validateShareToken
  rw [hmiss]
  rcases hr : env.repoValidateShare token sessionID with e | b
  · rfl
  · have hb := hrepo b hr
    subst hb
    rfl

/-- C1: when the `share_token` query parameter is non-empty, the result of
the middleware is independent of the `Authorization` header, no bearer-path
action (header read, bearer cache lookup, bearer verification) ever occurs,
the share path decides the request, and a share validation failure (cache
miss together with a backend error or a no-grant answer) is rejected with
403 Forbidden. -/
theorem auth_share_short_circuit (env : AuthEnv) (m : CacheMap) (now : Int)
    (req : AuthRequest) (hshare : req.shareTokenParam ≠ []) :
    (∀ h1 h2, Auth env m now { req with authHeader := h1 } =
              Auth env m now { req with authHeader := h2 }) ∧
    ((Auth env m now req).2.2.all (fun ev => !isBearerEvent ev) = true) ∧
    (req.sessionId ≠ [] →
      ((Auth env m now req).1 = .forbidden ∨
       (Auth env m now req).1 = .proceed "share".toList [])) ∧
    (req.sessionId ≠ [] →
      GetShareToken m req.shareTokenParam req.sessionId = none →
      (∀ b, env.repoValidateShare req.shareTokenParam req.sessionId = .ok b →
        b = false) →
      (Auth env m now req).1 = .forbidden) := by
  by_cases hsid : req.sessionId = []
  · refine ⟨fun h1 h2 => by simp [Auth, hsid], by simp [Auth, hsid],
      fun hc => absurd hsid hc, fun hc => absurd hsid hc⟩
  · have hvs := validateShareToken_events_share_only env m now
      req.shareTokenParam req.sessionId
    rcases hv : validateShareToken env m now req.shareTokenParam req.sessionId
      with ⟨b, m1, evs⟩
    rw [hv] at hvs
    refine ⟨fun h1 h2 => by simp [Auth, hsid, hshare], ?_, ?_, ?_⟩
    · cases b
      · have hauth : Auth env m now req = (.forbidden, m1, evs) := by
          simp [Auth, hsid, hshare, hv]
        rw [hauth]
        exact hvs
      · have hauth : Auth env m now req = (.proceed "share".toList [], m1, evs) := by
          simp [Auth, hsid, hshare, hv]
        rw [hauth]
        exact hvs
    · intro _
      cases b
      · left; simp [Auth, hsid, hshare, hv]
      · right; simp [Auth, hsid, hshare, hv]
    · intro _ hmiss hrepo
      have hb : b = false := by
        have hf := validateShareToken_fail env m now
          req.shareTokenParam req.sessionId hmiss hrepo
        rw [hv] at hf
        exact hf
      subst hb
      simp [Auth, hsid, hshare, hv]

/-- Witness for C1: an empty cache and a backend reporting no grant yield
403 for a request carrying `share_token=tok`, whatever bearer header is
present. -/
theorem auth_share_short_circuit_witness :
    ("tok".toList ≠ ([] : List Char)) ∧
    (Auth ⟨fun _ _ => .ok false, fun _ => none⟩ (fun _ => none) 0
        ⟨"s".toList, "tok".toList, "Bearer abc".toList⟩).1 = .forbidden ∧
    ((Auth ⟨fun _ _ => .ok false, fun _ => none⟩ (fun _ => none) 0
        ⟨"s".toList, "tok".toList, "Bearer abc".toList⟩).2.2.all
      (fun ev => !isBearerEvent ev) = true) := by
  have h := auth_share_short_circuit ⟨fun _ _ => .ok false, fun _ => none⟩
    (fun _ => none) 0 ⟨"s".toList, "tok".toList, "Bearer abc".toList⟩ (by decide)
  refine ⟨by decide, ?_, h.2.1⟩
  exact h.2.2.2 (by decide) rfl (fun b hb => by injection hb with hb; exact hb.symm)

/-- C3 counterexample: the code extracts a token from headers the spec's
scheme-whitespace-token shape rejects — `bearerx` is accepted with token
`x` although no whitespace follows the scheme. -/
theorem bearer_extraction_counterexample :
    ¬ (∀ h : List Char, extractBearerToken h ≠ [] →
        (specExtractBearerToken h).isSome = true) := by
  intro hall
  exact absurd (hall "bearerx".toList (by decide)) (by decide)

/-- C3 (amended): a token is extracted exactly when the trimmed header has
at least 7 characters, its first six lowercase to `bearer`, and the
remainder after those six characters trims to something non-empty — the
extracted token being that trimmed remainder; whitespace between the
scheme and the token is not required. Every header of the spec's
scheme-whitespace-token shape is accepted with the spec's token, and on
the bearer path a header from which no token is extracted (missing,
non-bearer scheme, empty token) is rejected with 401 Unauthorized. -/
theorem bearer_extraction_characterization (h : List Char) :
    (extractBearerToken h ≠ [] ↔
      (7 ≤ (goTrimSpace h).length ∧
       ((goTrimSpace h).take 6).map goToLowerChar = "bearer".toList ∧
       goTrimSpace ((goTrimSpace h).drop 6) ≠ [])) ∧
    (extractBearerToken h ≠ [] →
      extractBearerToken h = goTrimSpace ((goTrimSpace h).drop 6)) ∧
    (∀ t, specExtractBearerToken h = some t → extractBearerToken h = t) ∧
    (∀ env m now req, req.shareTokenParam = [] → req.authHeader = h →
      extractBearerToken h = [] → (Auth env m now req).1 = .unauthorized) := by
  refine ⟨?_, ?_, ?_, ?_⟩
  · unfold extractBearerToken
    split_ifs with h1 h2 h3
    · constructor
      · intro hfalse; exact absurd rfl hfalse
      · rintro ⟨hlen, -, -⟩; omega
    · constructor
      · intro hfalse; exact absurd rfl hfalse
      · rintro ⟨-, htake, -⟩; exact absurd htake h2
    · constructor
      · intro hfalse; exact absurd rfl hfalse
      · rintro ⟨-, -, htok⟩; exact absurd h3 htok
    · constructor
      · intro _; exact ⟨by omega, not_not.mp h2, h3⟩
      · intro _; exact h3
  · intro hne
    unfold extractBearerToken at hne ⊢
    split_ifs at hne ⊢ with h1 h2 h3
    · exact absurd rfl hne
    · exact absurd rfl hne
    · exact absurd rfl hne
    · rfl
  · intro t hspec
    unfold specExtractBearerToken at hspec
    split_ifs at hspec with hc htok
    · injection hspec with hspec
      obtain ⟨hlen, htake, -⟩ := hc
      unfold extractBearerToken
      rw [if_neg (by omega), if_neg (not_not.mpr htake), if_neg htok]
      exact hspec
  · intro env m now req hst hah hempty
    by_cases hsid : req.sessionId = []
    · simp [Auth, hsid]
    · by_cases hh : req.authHeader = []
      · simp [Auth, hsid, hst, hh]
      · rw [hah] at hh
        simp [Auth, hsid, hst, hah, hh, hempty]

/-- Witness for C3 (amended): the spec's two-space boundary case
`Bearer␣␣tok` is accepted with token `tok`. -/
theorem bearer_extraction_characterization_witness :
    specExtractBearerToken "Bearer  tok".toList = some "tok".toList ∧
    extractBearerToken "Bearer  tok".toList = "tok".toList :=
  ⟨by decide,
   (bearer_extraction_characterization "Bearer  tok".toList).2.2.1
     "tok".toList (by decide)⟩

/-- C5 (code bug): a token the verifier accepts with no `exp` claim — the
verifier's own expiry check tolerates a nil `ExpiresAt` — reaches the
middleware's positive-cache write, which reads `claims.ExpiresAt.Time`
unconditionally; the bearer request then dies in a nil-pointer dereference
instead of being authorized and cached. -/
theorem validateJWTToken_no_exp_nil_deref :
    ValidateToken (some ⟨true, ⟨"user-1".toList, none, none, [], []⟩⟩) 0 =
      .ok ⟨"user-1".toList, none, none, [], "user-1".toList⟩ ∧
    (Auth ⟨fun _ _ => .ok false,
           fun _ => some ⟨true, ⟨"user-1".toList, none, none, [], []⟩⟩⟩
        (fun _ => none) 0 ⟨"s".toList, [], "Bearer tok".toList⟩).1 = .nilPanic := by
  constructor
  · rfl
  · rfl

/-- One compression round preserves the state length. -/
theorem sha256Round_length (st : List Nat) (k wi : Nat) :
    (sha256Round st k wi).length = st.length := by
  unfold sha256Round
  split
  · simp
  · rfl

/-- Folding compression rounds preserves the state length. -/
theorem foldl_sha256Round_length (l : List (Nat × Nat)) (s : List Nat) :
    (l.foldl (fun st kw => sha256Round st kw.1 kw.2) s).length = s.length := by
  induction l generalizing s with
  | nil => rfl
  | cons a t ih => rw [List.foldl_cons, ih, sha256Round_length]

/-- Compressing a block of an 8-word state yields an 8-word state. -/
theorem compressBlock_length (hs block : List Nat) (h8 : hs.length = 8) :
    (compressBlock hs block).length = 8 := by
  simp only [compressBlock]
  rw [List.length_map, List.length_zip, foldl_sha256Round_length, h8]
  decide

/-- Folding block compressions preserves the 8-word state. -/
theorem foldl_compressBlock_length (blocks : List (List Nat)) (s : List Nat)
    (h8 : s.length = 8) : (blocks.foldl compressBlock s).length = 8 := by
  induction blocks generalizing s with
  | nil => exact h8
  | cons b t ih =>
    rw [List.foldl_cons]
    exact ih _ (compressBlock_length _ _ h8)

/-- Serializing hash words to bytes quadruples the length. -/
theorem flatten_quad_length (l : List Nat) :
    ((l.map (fun x => [(x >>> 24) % 256, (x >>> 16) % 256, (x >>> 8) % 256, x % 256])).flatten).length =
      4 * l.length := by
  induction l with
  | nil => rfl
  | cons a t ih =>
    simp only [List.map_cons, List.flatten_cons, List.length_append, ih,
      List.length_cons, List.length_nil]
    omega

/-- A SHA-256 digest is 32 bytes. -/
theorem sha256_length (msg : List Nat) : (sha256 msg).length = 32 := by
  simp only [sha256]
  rw [flatten_quad_length, foldl_compressBlock_length]
  rfl

/-- Hex rendering doubles the length. -/
theorem hexOfBytes_length (bs : List Nat) : (hexOfBytes bs).length = 2 * bs.length := by
  induction bs with
  | nil => rfl
  | cons b t ih =>
    unfold hexOfBytes at ih ⊢
    rw [List.map_cons, List.flatten_cons, List.length_append, ih]
    simp only [List.length_cons, List.length_nil]
    omega

/-- Every bearer cache key is exactly 68 characters long. -/
theorem getJWTKey_length (token : List Char) : (getJWTKey token).length = 68 := by
  unfold getJWTKey
  rw [List.length_append, hexOfBytes_length, sha256_length]
  rfl

/-- Every bearer cache key starts with `jwt:`. -/
theorem getJWTKey_starts_with_jwt (token : List Char) :
    (getJWTKey token).take 4 = "jwt:".toList := rfl

/-- A token whose length is not 68 can never collide with its own bearer
cache key; the only conceivable collisions are 68-character tokens of the
form `jwt:` + 64 hex characters equal to their own digest, a SHA-256
fixed-point question that is open either way. -/
theorem getJWTKey_ne_token_of_length (token : List Char) (hlen : token.length ≠ 68) :
    getJWTKey token ≠ token := by
  intro he
  apply hlen
  rw [← he, getJWTKey_length]

end AuditProof
